import Mathlib

/-!
Shallow embedding of `src/ssh_edr.py` (class `SSHEdr`): a streaming SSH
log detector.  Python `deque`s of arrival times become `List Nat`
(oldest first); `defaultdict` maps become association lists
`List (String × α)` where an access through `[]` vivifies the key with
the default, exactly as Python's `defaultdict.__getitem__` does.  The
wall clock (`datetime.utcnow`) becomes an explicit `now : Nat` argument
carried by each event; `timedelta` subtraction `now - window` becomes
truncated `Nat` subtraction, which agrees with the Python comparison
`dq[0] < cutoff` because all stored times are nonnegative.  A
`BlockRequest` is a call to `_block_ip`, recorded as the blocked IP;
whether the iptables command is actually executed (`execute_block`)
does not change that a request was issued.
-/

set_option autoImplicit false

namespace SshEdr

/-- The payload of an alert's `info` dictionary, one constructor per
alert kind produced by the code. -/
inductive AlertInfo where
  | bruteForce (ip : String) (count : Nat) (window_s : Nat)
  | invalidBurst (ip : String) (user : String) (count : Nat)
  | successAfterFailures (user : String) (ip : String) (recent_failed : Nat)
  | newIp (user : String) (ip : String)
  deriving DecidableEq

/-- One alert record, mirroring the dict built in `SSHEdr._alert`. -/
structure Alert where
  ts : Nat
  kind : String
  info : AlertInfo
  deriving DecidableEq

/-- Typed events, one per regex dispatch branch of `SSHEdr.parse_line`.
`FailedLogin` keeps only the IP because `record_failed` uses only
`m.group(3)`. -/
inductive Event where
  | failedLogin (ip : String)
  | invalidUserAttempt (ip : String) (user : String)
  | successfulLogin (user : String) (ip : String)
  | authFailure (ip : String)
  deriving DecidableEq

/-- Lookup in an association list (Python `dict` access without
vivification). -/
def ddFind {α : Type} : List (String × α) → String → Option α
  | [], _ => none
  | (k', v) :: rest, k => if k' = k then some v else ddFind rest k

/-- The value a `defaultdict` access returns: the stored value, or the
default for a missing key. -/
def ddGet {α : Type} (d : α) (m : List (String × α)) (k : String) : α :=
  (ddFind m k).getD d

/-- Store a value, inserting the key at the end (Python dicts keep
insertion order). -/
def ddSet {α : Type} : List (String × α) → String → α → List (String × α)
  | [], k, v => [(k, v)]
  | (k', v') :: rest, k, v =>
      if k' = k then (k, v) :: rest else (k', v') :: ddSet rest k v

/-- Whether a key is present (Python `in` on the dict's keys). -/
def hasKey {α : Type} (m : List (String × α)) (k : String) : Bool :=
  (ddFind m k).isSome

/-- The key-creation side effect of a bare `defaultdict` access: the
key is vivified with its current value (the default if absent). -/
def ddTouch {α : Type} (d : α) (m : List (String × α)) (k : String) :
    List (String × α) :=
  ddSet m k (ddGet d m k)

/-- Model of `SSHEdr._prune`: pop from the left while the head is strictly
older than the cutoff. -/
def prune : List Nat → Nat → List Nat
  | [], _ => []
  | t :: rest, cutoff => if t < cutoff then prune rest cutoff else t :: rest

/-- Append to a `deque(maxlen=50)`: push right, evicting from the left
when over capacity. -/
def appendMax50 {α : Type} (dq : List α) (x : α) : List α :=
  let dq' := dq ++ [x]
  if 50 < dq'.length then dq'.drop (dq'.length - 50) else dq'

/-- The engine state: configuration plus the four `defaultdict`s and
the in-memory alert log, as set up in `SSHEdr.__init__`. -/
structure SSHEdr where
  failed_threshold : Nat
  window : Nat
  invalid_threshold : Nat
  failed : List (String × List Nat)
  invalid_user : List (String × List Nat)
  successful_logins : List (String × List (String × Nat))
  known_user_ips : List (String × List String)
  alerts : List Alert
  dry_run : Bool
  execute_block : Bool
  deriving DecidableEq

/-- Model of `SSHEdr.__init__`: empty maps and alert log. -/
def SSHEdr.init (failed_threshold window_seconds invalid_threshold : Nat)
    (dry_run execute_block : Bool) : SSHEdr :=
  ⟨failed_threshold, window_seconds, invalid_threshold, [], [], [], [], [],
    dry_run, execute_block⟩

/-- The deque `self.failed[ip]` would denote (without the vivification
side effect). -/
def failedOf (s : SSHEdr) (ip : String) : List Nat :=
  ddGet [] s.failed ip

/-- The deque `self.invalid_user[ip]` would denote. -/
def invalidOf (s : SSHEdr) (ip : String) : List Nat :=
  ddGet [] s.invalid_user ip

/-- The set `self.known_user_ips[user]` would denote, as a
duplicate-free list in insertion order. -/
def knownOf (s : SSHEdr) (user : String) : List String :=
  ddGet [] s.known_user_ips user

/-- The deque `self.successful_logins[user]` would denote. -/
def succOf (s : SSHEdr) (user : String) : List (String × Nat) :=
  ddGet [] s.successful_logins user

/-- The alert `record_failed` emits on a threshold crossing. -/
def bfAlert (ip : String) (count window_s t : Nat) : Alert :=
  ⟨t, "brute_force_suspected", .bruteForce ip count window_s⟩

/-- The alert `record_invalid_user` emits on a threshold crossing. -/
def iuAlert (ip user : String) (count t : Nat) : Alert :=
  ⟨t, "invalid_user_burst", .invalidBurst ip user count⟩

/-- The alert the successful-after-failures rule emits. -/
def safAlert (user ip : String) (recent_failed t : Nat) : Alert :=
  ⟨t, "successful_after_failures", .successAfterFailures user ip recent_failed⟩

/-- The alert the new-IP rule emits. -/
def niAlert (user ip : String) (t : Nat) : Alert :=
  ⟨t, "login_from_new_ip", .newIp user ip⟩

/-- Model of `SSHEdr.record_failed`: append `now` to the IP's deque, prune
against `now - window`, alert and (outside dry-run) request a block
when the pruned length reaches the threshold.  Returns the new state,
the alerts emitted by this call, and the IPs for which `_block_ip` was
invoked. -/
def record_failed (s : SSHEdr) (ip : String) (now : Nat) :
    SSHEdr × List Alert × List String :=
  let dq := prune (ddGet [] s.failed ip ++ [now]) (now - s.window)
  let s1 := { s with failed := ddSet s.failed ip dq }
  if s.failed_threshold ≤ dq.length then
    let a := bfAlert ip dq.length s.window now
    let s2 := { s1 with alerts := s1.alerts ++ [a] }
    if s.dry_run then (s2, [a], []) else (s2, [a], [ip])
  else (s1, [], [])

/-- Model of `SSHEdr.record_invalid_user`: the same discipline against the
independent `invalid_user` map and `invalid_threshold`. -/
def record_invalid_user (s : SSHEdr) (ip user : String) (now : Nat) :
    SSHEdr × List Alert × List String :=
  let dq := prune (ddGet [] s.invalid_user ip ++ [now]) (now - s.window)
  let s1 := { s with invalid_user := ddSet s.invalid_user ip dq }
  if s.invalid_threshold ≤ dq.length then
    let a := iuAlert ip user dq.length now
    let s2 := { s1 with alerts := s1.alerts ++ [a] }
    if s.dry_run then (s2, [a], []) else (s2, [a], [ip])
  else (s1, [], [])

/-- Model of `SSHEdr.record_success`: read `len(self.failed[ip])` (a vivifying
read, with no prune), alert when it reaches `max(1, threshold // 2)`;
then the new-IP check against `known_user_ips[user]` (also a vivifying
read); finally append `(ip, now)` to the capacity-50 success history.
Never calls `_block_ip`. -/
def record_success (s : SSHEdr) (user ip : String) (now : Nat) :
    SSHEdr × List Alert × List String :=
  let fail_count := (ddGet [] s.failed ip).length
  let s1 := { s with failed := ddTouch [] s.failed ip }
  let p2 :=
    if max 1 (s.failed_threshold / 2) ≤ fail_count then
      let a := safAlert user ip fail_count now
      ({ s1 with alerts := s1.alerts ++ [a] }, [a])
    else (s1, ([] : List Alert))
  let s2 := p2.1
  let kset := ddGet [] s2.known_user_ips user
  let p3 :=
    if ip ∈ kset then
      ({ s2 with known_user_ips := ddTouch [] s2.known_user_ips user },
        ([] : List Alert))
    else
      let a := niAlert user ip now
      ({ s2 with known_user_ips := ddSet s2.known_user_ips user (kset ++ [ip]),
                 alerts := s2.alerts ++ [a] }, [a])
  let s3 := p3.1
  let hist := appendMax50 (ddGet [] s3.successful_logins user) (ip, now)
  let s4 := { s3 with successful_logins := ddSet s3.successful_logins user hist }
  (s4, p2.2 ++ p3.2, [])

/-- The per-event dispatch of `SSHEdr.parse_line` (lines 116-140): both
the failed-password and the PAM pattern route to `record_failed`. -/
def process (s : SSHEdr) (e : Event) (now : Nat) :
    SSHEdr × List Alert × List String :=
  match e with
  | .failedLogin ip => record_failed s ip now
  | .invalidUserAttempt ip user => record_invalid_user s ip user now
  | .successfulLogin user ip => record_success s user ip now
  | .authFailure ip => record_failed s ip now

/-- Sequential processing of a stream of timestamped events, collecting
all emitted alerts and block requests in order. -/
def processAll (s : SSHEdr) : List (Event × Nat) → SSHEdr × List Alert × List String
  | [] => (s, [], [])
  | (e, t) :: rest =>
      let r := process s e t
      let r' := processAll r.1 rest
      (r'.1, r.2.1 ++ r'.2.1, r.2.2 ++ r'.2.2)

/-- A run of failed-login events for one IP at the given arrival
times. -/
def runFailed (s : SSHEdr) (ip : String) (ts : List Nat) :
    SSHEdr × List Alert × List String :=
  processAll s (ts.map fun t => (Event.failedLogin ip, t))

/-!
The four regexes of the classifier, as executable matchers on
`List Char`.  `re.search` tries each start position left to right; at
a position the pattern is matched by direct translation.  In all four
patterns every `\S+` and every `\d+` is immediately followed by a
literal character that its own class rejects (a space after `\S+`, a
dot after the first three `\d+`, end of pattern after the last), so
the greedy maximal-munch run is the only candidate Python's
backtracking engine can accept, and plain maximal-munch is exact.
The optional groups of `FAILED_RE` and the greedy `.*` of
`PAM_FAILED_RE` do need backtracking, which is written out as ordered
alternatives (longest / leftmost-preferring first, as Python does).
-/

/-- Python's `\s` class over ASCII, so `\S` is its negation. -/
def isPySpace (c : Char) : Bool :=
  c = ' ' || c = '\t' || c = '\n' || c = '\r' || c = '\x0b' || c = '\x0c'

/-- Match a literal string, returning the rest of the input. -/
def dropLit : List Char → List Char → Option (List Char)
  | [], cs => some cs
  | _ :: _, [] => none
  | p :: ps, c :: cs => if c = p then dropLit ps cs else none

/-- Matcher for `\S+`: one or more non-space characters, maximal run. -/
def nonSpace1 (cs : List Char) : Option (List Char × List Char) :=
  let p := cs.span fun c => !isPySpace c
  if p.1.isEmpty then none else some p

/-- Matcher for `\d+`: one or more ASCII digits, maximal run. -/
def digits1 (cs : List Char) : Option (List Char × List Char) :=
  let p := cs.span fun c => c.isDigit
  if p.1.isEmpty then none else some p

/-- Matcher for `\d+\.\d+\.\d+\.\d+`: the dotted-quad capture and the rest of the
input. -/
def matchIP (cs : List Char) : Option (String × List Char) :=
  (digits1 cs).bind fun q1 =>
  (dropLit ['.'] q1.2).bind fun r1 =>
  (digits1 r1).bind fun q2 =>
  (dropLit ['.'] q2.2).bind fun r2 =>
  (digits1 r2).bind fun q3 =>
  (dropLit ['.'] q3.2).bind fun r3 =>
  (digits1 r3).map fun q4 =>
  (String.mk (q1.1 ++ '.' :: q2.1 ++ '.' :: q3.1 ++ '.' :: q4.1), q4.2)

/-- Matcher for `from (\d+\.\d+\.\d+\.\d+)` — the tail shared by the first three
patterns when the optional user group is absent. -/
def fromThenIP (cs : List Char) : Option String :=
  (dropLit "from ".toList cs).bind fun r => (matchIP r).map Prod.fst

/-- Matcher for `(\S+) from (\d+\.\d+\.\d+\.\d+)`, returning only the IP. -/
def userThenFromIP (cs : List Char) : Option String :=
  (nonSpace1 cs).bind fun q =>
  (dropLit " from ".toList q.2).bind fun r => (matchIP r).map Prod.fst

/-- Matcher for `FAILED_RE` at one start position.  The optional group
`(?:(invalid user )?(\S+) )?` yields three ordered attempts: with the
`invalid user ` marker, with a bare username, with no group at all.
Only `group(3)`, the IP, is returned because only it is used. -/
def matchFAILEDAt (cs : List Char) : Option String :=
  (dropLit "Failed password for ".toList cs).bind fun r =>
    ((dropLit "invalid user ".toList r).bind userThenFromIP) <|>
      userThenFromIP r <|> fromThenIP r

/-- Matcher for `INVALID_USER_RE` at one start position: `(user, ip)`. -/
def matchINVALIDAt (cs : List Char) : Option (String × String) :=
  (dropLit "Invalid user ".toList cs).bind fun r =>
  (nonSpace1 r).bind fun q =>
  (dropLit " from ".toList q.2).bind fun r2 =>
  (matchIP r2).map fun p => (String.mk q.1, p.1)

/-- Matcher for `ACCEPTED_RE` at one start position: `(user, ip)`.  The
alternatives `password` and `publickey` differ at their second
character, so at most one applies. -/
def matchACCEPTEDAt (cs : List Char) : Option (String × String) :=
  (dropLit "Accepted ".toList cs).bind fun r =>
  ((dropLit "password".toList r) <|> (dropLit "publickey".toList r)).bind fun r2 =>
  (dropLit " for ".toList r2).bind fun r3 =>
  (nonSpace1 r3).bind fun q =>
  (dropLit " from ".toList q.2).bind fun r4 =>
  (matchIP r4).map fun p => (String.mk q.1, p.1)

/-- Greedy `.*` (not matching a newline) followed by a continuation:
try the longest consumed prefix first, exactly Python's backtracking
order. -/
def dotStarThen {α : Type} (k : List Char → Option α) : List Char → Option α
  | [] => k []
  | c :: rest =>
      if c = '\n' then k (c :: rest)
      else (dotStarThen k rest) <|> k (c :: rest)

/-- Matcher for `PAM_FAILED_RE` at one start position: the rhost IP. -/
def matchPAMAt (cs : List Char) : Option String :=
  (dropLit "authentication failure;".toList cs).bind
    (dotStarThen fun r =>
      (dropLit "rhost=".toList r).bind fun r2 => (matchIP r2).map Prod.fst)

/-- Model of `re.search`: try the matcher at every start position, leftmost
first. -/
def searchPos {α : Type} (m : List Char → Option α) : List Char → Option α
  | [] => m []
  | c :: rest => m (c :: rest) <|> searchPos m rest

/-- The classification half of `SSHEdr.parse_line`: the four regexes
tried in source order, first match wins, producing the typed event the
matching branch dispatches on. -/
def classify (line : String) : Option Event :=
  let cs := line.toList
  match searchPos matchFAILEDAt cs with
  | some ip => some (.failedLogin ip)
  | none =>
  match searchPos matchINVALIDAt cs with
  | some p => some (.invalidUserAttempt p.2 p.1)
  | none =>
  match searchPos matchACCEPTEDAt cs with
  | some p => some (.successfulLogin p.1 p.2)
  | none =>
  match searchPos matchPAMAt cs with
  | some ip => some (.authFailure ip)
  | none => none

/-- Model of `SSHEdr.parse_line`: classify the line and process the resulting
event; a line matching no pattern falls off the end of the method,
leaving the state untouched and emitting nothing. -/
def parse_line (s : SSHEdr) (line : String) (now : Nat) :
    SSHEdr × List Alert × List String :=
  match classify line with
  | some e => process s e now
  | none => (s, [], [])

/-! Basic facts about the association-list operations. -/

@[simp] lemma ddFind_ddSet_self {α : Type} (m : List (String × α)) (k : String) (v : α) :
    ddFind (ddSet m k v) k = some v := by
  induction m with
  | nil => simp [ddSet, ddFind]
  | cons p rest ih =>
      by_cases h : p.1 = k <;> simp [ddSet, ddFind, h, ih]

@[simp] lemma ddFind_ddSet_ne {α : Type} (m : List (String × α)) (k k' : String) (v : α)
    (h : k ≠ k') : ddFind (ddSet m k v) k' = ddFind m k' := by
  induction m with
  | nil => simp [ddSet, ddFind, h]
  | cons p rest ih =>
      by_cases hp : p.1 = k
      · subst hp
        simp [ddSet, ddFind, h]
      · simp [ddSet, ddFind, hp, ih]

@[simp] lemma ddGet_ddSet_self {α : Type} (d : α) (m : List (String × α)) (k : String) (v : α) :
    ddGet d (ddSet m k v) k = v := by
  simp [ddGet]

lemma ddGet_ddSet_ne {α : Type} (d : α) (m : List (String × α)) (k k' : String) (v : α)
    (h : k ≠ k') : ddGet d (ddSet m k v) k' = ddGet d m k' := by
  simp [ddGet, ddFind_ddSet_ne m k k' v h]

@[simp] lemma ddGet_ddTouch {α : Type} (d : α) (m : List (String × α)) (k k' : String) :
    ddGet d (ddTouch d m k) k' = ddGet d m k' := by
  by_cases h : k = k'
  · subst h
    simp [ddTouch]
  · simp [ddTouch, ddGet_ddSet_ne d m k k' _ h]

@[simp] lemma hasKey_ddSet_self {α : Type} (m : List (String × α)) (k : String) (v : α) :
    hasKey (ddSet m k v) k = true := by
  simp [hasKey]

lemma hasKey_ddSet_ne {α : Type} (m : List (String × α)) (k k' : String) (v : α)
    (h : k ≠ k') : hasKey (ddSet m k v) k' = hasKey m k' := by
  simp [hasKey, ddFind_ddSet_ne m k k' v h]

lemma hasKey_ddTouch_ne {α : Type} (d : α) (m : List (String × α)) (k k' : String)
    (h : k ≠ k') : hasKey (ddTouch d m k) k' = hasKey m k' := by
  simp [ddTouch, hasKey_ddSet_ne m k k' _ h]

/-! Facts about `prune`. -/

lemma prune_eq_self (dq : List Nat) (c : Nat) (h : ∀ x ∈ dq, c ≤ x) :
    prune dq c = dq := by
  cases dq with
  | nil => rfl
  | cons t rest =>
      have : ¬ t < c := not_lt.mpr (h t (by simp))
      simp [prune, this]

lemma prune_eq_filter (dq : List Nat) (c : Nat) (h : List.Pairwise (· ≤ ·) dq) :
    prune dq c = dq.filter fun x => decide (c ≤ x) := by
  induction dq with
  | nil => rfl
  | cons t rest ih =>
      rcases List.pairwise_cons.mp h with ⟨hle, hrest⟩
      by_cases ht : t < c
      · have : ¬ c ≤ t := not_le.mpr ht
        simp only [prune, if_pos ht, List.filter_cons, decide_eq_true_eq]
        rw [if_neg (by simpa using this)]
        exact ih hrest
      · have hct : c ≤ t := not_lt.mp ht
        simp only [prune, if_neg ht, List.filter_cons, decide_eq_true_eq]
        rw [if_pos (by simpa using hct)]
        have : rest.filter (fun x => decide (c ≤ x)) = rest :=
          List.filter_eq_self.mpr fun a ha => by
            simpa using le_trans hct (hle a ha)
        rw [this]

lemma mem_prune_of_sorted (dq : List Nat) (c x : Nat) (h : List.Pairwise (· ≤ ·) dq) :
    x ∈ prune dq c ↔ x ∈ dq ∧ c ≤ x := by
  rw [prune_eq_filter dq c h]
  simp [List.mem_filter]

lemma prune_pairwise (dq : List Nat) (c : Nat) (h : List.Pairwise (· ≤ ·) dq) :
    List.Pairwise (· ≤ ·) (prune dq c) := by
  rw [prune_eq_filter dq c h]
  exact h.sublist (List.filter_sublist dq)

/-! Characterizations of the three record functions, in terms the
claims can use. -/

/-- The alerts `record_failed` emits. -/
def failedAlerts (s : SSHEdr) (ip : String) (now : Nat) : List Alert :=
  let dq := prune (failedOf s ip ++ [now]) (now - s.window)
  if s.failed_threshold ≤ dq.length then [bfAlert ip dq.length s.window now] else []

/-- The block requests `record_failed` issues. -/
def failedBlocks (s : SSHEdr) (ip : String) (now : Nat) : List String :=
  let dq := prune (failedOf s ip ++ [now]) (now - s.window)
  if s.failed_threshold ≤ dq.length ∧ s.dry_run = false then [ip] else []

lemma record_failed_eq (s : SSHEdr) (ip : String) (now : Nat) :
    record_failed s ip now =
      ({ s with failed := ddSet s.failed ip (prune (failedOf s ip ++ [now]) (now - s.window)),
                alerts := s.alerts ++ failedAlerts s ip now },
        failedAlerts s ip now, failedBlocks s ip now) := by
  simp only [record_failed, failedAlerts, failedBlocks, failedOf]
  split_ifs with h1 h2 <;> simp_all

/-- The alerts `record_invalid_user` emits. -/
def invalidAlerts (s : SSHEdr) (ip user : String) (now : Nat) : List Alert :=
  let dq := prune (invalidOf s ip ++ [now]) (now - s.window)
  if s.invalid_threshold ≤ dq.length then [iuAlert ip user dq.length now] else []

/-- The block requests `record_invalid_user` issues. -/
def invalidBlocks (s : SSHEdr) (ip : String) (now : Nat) : List String :=
  let dq := prune (invalidOf s ip ++ [now]) (now - s.window)
  if s.invalid_threshold ≤ dq.length ∧ s.dry_run = false then [ip] else []

lemma record_invalid_user_eq (s : SSHEdr) (ip user : String) (now : Nat) :
    record_invalid_user s ip user now =
      ({ s with invalid_user := ddSet s.invalid_user ip (prune (invalidOf s ip ++ [now]) (now - s.window)),
                alerts := s.alerts ++ invalidAlerts s ip user now },
        invalidAlerts s ip user now, invalidBlocks s ip now) := by
  simp only [record_invalid_user, invalidAlerts, invalidBlocks, invalidOf]
  split_ifs with h1 h2 <;> simp_all

/-- The alerts `record_success` emits. -/
def successAlerts (s : SSHEdr) (user ip : String) (now : Nat) : List Alert :=
  (if max 1 (s.failed_threshold / 2) ≤ (failedOf s ip).length then
      [safAlert user ip (failedOf s ip).length now]
    else []) ++
  (if ip ∈ knownOf s user then [] else [niAlert user ip now])

/-- The `known_user_ips` map after `record_success`. -/
def successKnown (s : SSHEdr) (user ip : String) : List (String × List String) :=
  if ip ∈ knownOf s user then ddTouch [] s.known_user_ips user
  else ddSet s.known_user_ips user (knownOf s user ++ [ip])

lemma record_success_eq (s : SSHEdr) (user ip : String) (now : Nat) :
    record_success s user ip now =
      ({ s with failed := ddTouch [] s.failed ip,
                known_user_ips := successKnown s user ip,
                successful_logins := ddSet s.successful_logins user
                  (appendMax50 (succOf s user) (ip, now)),
                alerts := s.alerts ++ successAlerts s user ip now },
        successAlerts s user ip now, []) := by
  simp only [record_success, successAlerts, successKnown, failedOf, knownOf, succOf]
  split_ifs with h1 h2 h2 <;> simp_all

lemma process_dry_run (s : SSHEdr) (e : Event) (now : Nat) :
    (process s e now).1.dry_run = s.dry_run := by
  cases e <;>
    simp [process, record_failed_eq, record_invalid_user_eq, record_success_eq]

lemma processAll_blocks_of_dry :
    ∀ (evs : List (Event × Nat)) (s : SSHEdr), s.dry_run = true →
      (processAll s evs).2.2 = [] := by
  intro evs
  induction evs with
  | nil => intro s _; rfl
  | cons p rest ih =>
      intro s hdry
      obtain ⟨e, t⟩ := p
      have hstep : (process s e t).2.2 = [] := by
        cases e <;>
          simp [process, record_failed_eq, record_invalid_user_eq,
            record_success_eq, failedBlocks, invalidBlocks, hdry]
      have hpres : (process s e t).1.dry_run = true := by
        rw [process_dry_run]; exact hdry
      simp [processAll, hstep, ih (process s e t).1 hpres]

/-- Claim C10: processing a `SuccessfulLogin` event never issues a
`BlockRequest`, for every engine state and configuration —
`record_success` contains no call to `_block_ip`. -/
theorem claim_C10 (s : SSHEdr) (user ip : String) (now : Nat) :
    (process s (.successfulLogin user ip) now).2.2 = [] := by
  simp [process, record_success_eq]

/-- Claim C3: on a `SuccessfulLogin` the engine reads the current
length of the IP's `failed` deque without pruning it (the deque's
contents are unchanged by the event), and emits a
`successful_after_failures` alert, carrying that raw length, exactly
when the raw length is at least `max 1 (failed_threshold / 2)`. -/
theorem claim_C3 (s : SSHEdr) (user ip : String) (now : Nat) :
    ((∃ a ∈ (process s (.successfulLogin user ip) now).2.1,
        a.kind = "successful_after_failures") ↔
      max 1 (s.failed_threshold / 2) ≤ (failedOf s ip).length) ∧
    (max 1 (s.failed_threshold / 2) ≤ (failedOf s ip).length →
      safAlert user ip (failedOf s ip).length now ∈
        (process s (.successfulLogin user ip) now).2.1) ∧
    failedOf (process s (.successfulLogin user ip) now).1 ip = failedOf s ip := by
  have hkind : ("login_from_new_ip" : String) ≠ "successful_after_failures" := by
    decide
  refine ⟨?_, ?_, ?_⟩
  · simp only [process, record_success_eq, successAlerts]
    split_ifs with h1 h2 <;>
      simp_all [safAlert, niAlert]
  · intro h
    simp [process, record_success_eq, successAlerts, h]
  · simp [process, record_success_eq, failedOf]

/-- Claim C3 witness: with three stale failures on record and the
default threshold 5, a successful login emits the alert with
`recent_failed = 3`. -/
theorem claim_C3_witness :
    safAlert "alice" "1.2.3.4" 3 100 ∈
      (process { SSHEdr.init 5 60 8 true false with failed := [("1.2.3.4", [0, 1, 2])] }
        (.successfulLogin "alice" "1.2.3.4") 100).2.1 := by
  have h := (claim_C3 { SSHEdr.init 5 60 8 true false with failed := [("1.2.3.4", [0, 1, 2])] }
    "alice" "1.2.3.4" 100).2.1 (by decide)
  simpa using h

/-- Claim C2: with `dry_run = true` no block request is ever issued
over any event stream; with `dry_run = false` a failed-login,
PAM-failure or invalid-user event issues exactly one block request for
its IP precisely when the post-prune window count reaches the
respective threshold, and a successful login never issues one. -/
theorem claim_C2 :
    (∀ (s : SSHEdr) (evs : List (Event × Nat)), s.dry_run = true →
      (processAll s evs).2.2 = []) ∧
    (∀ (s : SSHEdr) (ip : String) (now : Nat), s.dry_run = false →
      (process s (.failedLogin ip) now).2.2 =
        if s.failed_threshold ≤ (prune (failedOf s ip ++ [now]) (now - s.window)).length
        then [ip] else []) ∧
    (∀ (s : SSHEdr) (ip : String) (now : Nat), s.dry_run = false →
      (process s (.authFailure ip) now).2.2 =
        if s.failed_threshold ≤ (prune (failedOf s ip ++ [now]) (now - s.window)).length
        then [ip] else []) ∧
    (∀ (s : SSHEdr) (ip user : String) (now : Nat), s.dry_run = false →
      (process s (.invalidUserAttempt ip user) now).2.2 =
        if s.invalid_threshold ≤ (prune (invalidOf s ip ++ [now]) (now - s.window)).length
        then [ip] else []) ∧
    (∀ (s : SSHEdr) (user ip : String) (now : Nat),
      (process s (.successfulLogin user ip) now).2.2 = []) := by
  refine ⟨fun s evs h => processAll_blocks_of_dry evs s h, ?_, ?_, ?_, ?_⟩
  · intro s ip now h
    simp only [process, record_failed_eq, failedBlocks, h]
    split_ifs <;> simp_all
  · intro s ip now h
    simp only [process, record_failed_eq, failedBlocks, h]
    split_ifs <;> simp_all
  · intro s ip user now h
    simp only [process, record_invalid_user_eq, invalidBlocks, h]
    split_ifs <;> simp_all
  · intro s user ip now
    simp [process, record_success_eq]

/-- Claim C2 witness: with threshold 1 and `dry_run = false` a single
failed login issues the block request for its IP. -/
theorem claim_C2_witness :
    (process (SSHEdr.init 1 60 8 false false) (.failedLogin "8.8.8.8") 0).2.2 = ["8.8.8.8"] := by
  have h := claim_C2.2.1 (SSHEdr.init 1 60 8 false false) "8.8.8.8" 0 (by rfl)
  simpa using h

/-- Claim C6: an invalid-user event appends to and prunes only that
IP's `invalid_user` deque, compared against `invalid_threshold`,
leaving the whole `failed` map unchanged; failed-login and PAM events
leave the whole `invalid_user` map unchanged. -/
theorem claim_C6 (s : SSHEdr) (ip user : String) (now : Nat) :
    ((process s (.invalidUserAttempt ip user) now).1.failed = s.failed) ∧
    (invalidOf (process s (.invalidUserAttempt ip user) now).1 ip =
      prune (invalidOf s ip ++ [now]) (now - s.window)) ∧
    (∀ ip', ip' ≠ ip →
      invalidOf (process s (.invalidUserAttempt ip user) now).1 ip' = invalidOf s ip') ∧
    ((∃ a ∈ (process s (.invalidUserAttempt ip user) now).2.1,
        a.kind = "invalid_user_burst") ↔
      s.invalid_threshold ≤ (prune (invalidOf s ip ++ [now]) (now - s.window)).length) ∧
    ((process s (.failedLogin ip) now).1.invalid_user = s.invalid_user) ∧
    ((process s (.authFailure ip) now).1.invalid_user = s.invalid_user) := by
  refine ⟨?_, ?_, ?_, ?_, ?_, ?_⟩
  · simp [process, record_invalid_user_eq]
  · simp [process, record_invalid_user_eq, invalidOf]
  · intro ip' hne
    simp only [process, record_invalid_user_eq, invalidOf]
    exact ddGet_ddSet_ne [] s.invalid_user ip ip' _ fun h => hne h.symm
  · simp only [process, record_invalid_user_eq, invalidAlerts]
    split_ifs with h1 <;> simp_all [iuAlert]
  · simp [process, record_failed_eq]
  · simp [process, record_failed_eq]

/-- Claim C6 witness: an invalid-user event for one IP leaves another
IP's invalid-user deque unchanged. -/
theorem claim_C6_witness :
    invalidOf (process { SSHEdr.init 5 60 8 true false with
        invalid_user := [("2.2.2.2", [7])] }
      (.invalidUserAttempt "1.1.1.1" "root") 9).1 "2.2.2.2" = [7] := by
  have h := (claim_C6 { SSHEdr.init 5 60 8 true false with
      invalid_user := [("2.2.2.2", [7])] } "1.1.1.1" "root" 9).2.2.1 "2.2.2.2" (by decide)
  simpa using h

lemma pairwise_append_singleton (dq : List Nat) (now : Nat)
    (h : List.Pairwise (· ≤ ·) dq) (hle : ∀ x ∈ dq, x ≤ now) :
    List.Pairwise (· ≤ ·) (dq ++ [now]) := by
  rw [List.pairwise_append]
  exact ⟨h, List.pairwise_singleton _ _, fun a ha b hb => by
    simp only [List.mem_singleton] at hb
    subst hb
    exact hle a ha⟩

/-- Claim C8: after the prune performed during a failed-login or an
invalid-user event, every entry remaining in that key's deque is at
least `now - window` (an entry exactly at the boundary is retained,
since the pop condition is a strict `<`), and the deque stays ordered
oldest-first.  The hypotheses say the stored deque was sorted and the
clock did not run backwards. -/
theorem claim_C8 (s : SSHEdr) (ip : String) (now : Nat)
    (hf : List.Pairwise (· ≤ ·) (failedOf s ip))
    (hfle : ∀ x ∈ failedOf s ip, x ≤ now)
    (hi : List.Pairwise (· ≤ ·) (invalidOf s ip))
    (hile : ∀ x ∈ invalidOf s ip, x ≤ now) (user : String) :
    ((∀ x ∈ failedOf (process s (.failedLogin ip) now).1 ip, now - s.window ≤ x) ∧
     List.Pairwise (· ≤ ·) (failedOf (process s (.failedLogin ip) now).1 ip) ∧
     (∀ x ∈ failedOf s ip ++ [now], now - s.window ≤ x →
        x ∈ failedOf (process s (.failedLogin ip) now).1 ip)) ∧
    ((∀ x ∈ invalidOf (process s (.invalidUserAttempt ip user) now).1 ip,
        now - s.window ≤ x) ∧
     List.Pairwise (· ≤ ·) (invalidOf (process s (.invalidUserAttempt ip user) now).1 ip) ∧
     (∀ x ∈ invalidOf s ip ++ [now], now - s.window ≤ x →
        x ∈ invalidOf (process s (.invalidUserAttempt ip user) now).1 ip)) := by
  have hfp : List.Pairwise (· ≤ ·) (failedOf s ip ++ [now]) :=
    pairwise_append_singleton _ _ hf hfle
  have hip : List.Pairwise (· ≤ ·) (invalidOf s ip ++ [now]) :=
    pairwise_append_singleton _ _ hi hile
  have hfres : failedOf (process s (.failedLogin ip) now).1 ip =
      prune (failedOf s ip ++ [now]) (now - s.window) := by
    simp [process, record_failed_eq, failedOf]
  have hires : invalidOf (process s (.invalidUserAttempt ip user) now).1 ip =
      prune (invalidOf s ip ++ [now]) (now - s.window) := by
    simp [process, record_invalid_user_eq, invalidOf]
  refine ⟨⟨?_, ?_, ?_⟩, ?_, ?_, ?_⟩
  · intro x hx
    rw [hfres] at hx
    exact ((mem_prune_of_sorted _ _ _ hfp).mp hx).2
  · rw [hfres]
    exact prune_pairwise _ _ hfp
  · intro x hx hc
    rw [hfres]
    exact (mem_prune_of_sorted _ _ _ hfp).mpr ⟨hx, hc⟩
  · intro x hx
    rw [hires] at hx
    exact ((mem_prune_of_sorted _ _ _ hip).mp hx).2
  · rw [hires]
    exact prune_pairwise _ _ hip
  · intro x hx hc
    rw [hires]
    exact (mem_prune_of_sorted _ _ _ hip).mpr ⟨hx, hc⟩

/-- Claim C8 witness: with window 60, a failure at time 70 prunes the
entry at time 5 but keeps the boundary entry at time 10. -/
theorem claim_C8_witness :
    (10 : Nat) ∈ failedOf (process { SSHEdr.init 5 60 8 true false with
        failed := [("9.9.9.9", [5, 10])] } (.failedLogin "9.9.9.9") 70).1 "9.9.9.9" := by
  have h := (claim_C8 { SSHEdr.init 5 60 8 true false with
      failed := [("9.9.9.9", [5, 10])] } "9.9.9.9" 70
      (by decide) (by decide) (by decide) (by decide) "root").1.2.2 10 (by decide) (by decide)
  exact h

lemma process_sl_indep (s : SSHEdr) (m : List (String × List (String × Nat)))
    (e : Event) (now : Nat) :
    ∃ m', process { s with successful_logins := m } e now =
      ({ (process s e now).1 with successful_logins := m' }, (process s e now).2) := by
  cases e with
  | failedLogin ip =>
      exact ⟨m, by simp [process, record_failed_eq, failedOf, failedAlerts, failedBlocks]⟩
  | authFailure ip =>
      exact ⟨m, by simp [process, record_failed_eq, failedOf, failedAlerts, failedBlocks]⟩
  | invalidUserAttempt ip user =>
      exact ⟨m, by simp [process, record_invalid_user_eq, invalidOf, invalidAlerts,
        invalidBlocks]⟩
  | successfulLogin user ip =>
      exact ⟨ddSet m user (appendMax50 (ddGet [] m user) (ip, now)),
        by simp [process, record_success_eq, succOf, successKnown, successAlerts,
          failedOf, knownOf]⟩

lemma processAll_sl_indep :
    ∀ (evs : List (Event × Nat)) (s : SSHEdr) (m : List (String × List (String × Nat))),
      (processAll { s with successful_logins := m } evs).2 = (processAll s evs).2 := by
  intro evs
  induction evs with
  | nil => intro s m; rfl
  | cons p rest ih =>
      intro s m
      obtain ⟨e, t⟩ := p
      obtain ⟨m', hm⟩ := process_sl_indep s m e t
      simp only [processAll, hm]
      have hr := ih (process s e t).1 m'
      simp only [Prod.ext_iff] at hr ⊢
      exact ⟨by rw [hr.1], by rw [hr.2]⟩

/-- Claim C9: the per-user success history is bounded by 50 entries;
an append at capacity evicts exactly the oldest entry; a successful
login appends `(ip, now)` at the right, keeping arrival order; and the
history never influences the emitted alerts or block requests of any
event stream. -/
theorem claim_C9 :
    (∀ (dq : List (String × Nat)) (x : String × Nat), (appendMax50 dq x).length ≤ 50) ∧
    (∀ (dq : List (String × Nat)) (x : String × Nat), dq.length = 50 →
      appendMax50 dq x = dq.tail ++ [x]) ∧
    (∀ (s : SSHEdr) (user ip : String) (now : Nat),
      succOf (process s (.successfulLogin user ip) now).1 user =
        appendMax50 (succOf s user) (ip, now)) ∧
    (∀ (dq : List (String × Nat)) (ip : String) (now : Nat),
      List.Pairwise (· ≤ ·) (dq.map Prod.snd) → (∀ t ∈ dq.map Prod.snd, t ≤ now) →
      List.Pairwise (· ≤ ·) ((appendMax50 dq (ip, now)).map Prod.snd)) ∧
    (∀ (s : SSHEdr) (m : List (String × List (String × Nat)))
        (evs : List (Event × Nat)),
      (processAll { s with successful_logins := m } evs).2 = (processAll s evs).2) := by
  refine ⟨?_, ?_, ?_, ?_, fun s m evs => processAll_sl_indep evs s m⟩
  · intro dq x
    simp only [appendMax50]
    split_ifs with h
    · simp only [List.length_drop]
      omega
    · simp only [not_lt] at h
      exact h
  · intro dq x hlen
    simp only [appendMax50, List.length_append, hlen, List.length_singleton]
    rw [if_pos (by omega)]
    have h1 : (50 + 1 - 50 : Nat) = 1 := by omega
    rw [h1, List.drop_append_of_le_length (by omega), List.drop_one]
  · intro s user ip now
    simp [process, record_success_eq, succOf]
  · intro dq ip now hp hle
    have hfull : List.Pairwise (· ≤ ·) ((dq ++ [(ip, now)]).map Prod.snd) := by
      rw [List.map_append]
      exact pairwise_append_singleton _ _ hp (by simpa using hle)
    simp only [appendMax50]
    split_ifs with h
    · exact hfull.sublist ((List.drop_sublist _ _).map Prod.snd)
    · exact hfull

/-- Claim C9 witness: an append to a history already holding 50
entries evicts the oldest one. -/
theorem claim_C9_witness :
    appendMax50 (List.replicate 50 (("1.1.1.1" : String), (0 : Nat))) ("2.2.2.2", 9) =
      (List.replicate 50 (("1.1.1.1" : String), (0 : Nat))).tail ++ [("2.2.2.2", 9)] :=
  claim_C9.2.1 (List.replicate 50 (("1.1.1.1" : String), (0 : Nat))) ("2.2.2.2", 9)
    (by simp)

lemma hasKey_ddSet {α : Type} (m : List (String × α)) (k k' : String) (v : α) :
    hasKey (ddSet m k v) k' = (decide (k = k') || hasKey m k') := by
  by_cases h : k = k'
  · subst h
    simp
  · simp [hasKey_ddSet_ne m k k' v h, h]

lemma hasKey_failed_process (s : SSHEdr) (e : Event) (now : Nat) (ip : String)
    (h : hasKey s.failed ip = true) :
    hasKey (process s e now).1.failed ip = true := by
  cases e <;>
    simp_all [process, record_failed_eq, record_invalid_user_eq, record_success_eq,
      ddTouch, hasKey_ddSet]

lemma hasKey_invalid_process (s : SSHEdr) (e : Event) (now : Nat) (ip : String)
    (h : hasKey s.invalid_user ip = true) :
    hasKey (process s e now).1.invalid_user ip = true := by
  cases e <;>
    simp_all [process, record_failed_eq, record_invalid_user_eq, record_success_eq,
      hasKey_ddSet]

/-- Claim C7 counterexample: starting from a fresh engine, a single
`SuccessfulLogin` — not a failure or invalid-user event — creates the
`failed` (failedTimestamps) entry for its IP, because
`len(self.failed[ip])` is a vivifying `defaultdict` read. -/
theorem claim_C7_counterexample :
    hasKey (SSHEdr.init 5 60 8 true false).failed "1.2.3.4" = false ∧
    hasKey (process (SSHEdr.init 5 60 8 true false)
      (.successfulLogin "alice" "1.2.3.4") 0).1.failed "1.2.3.4" = true := by
  decide

/-- Claim C7 (amended): the `failed` entry for an IP is created by the
first FailedLogin, AuthFailure or SuccessfulLogin event carrying that
IP (the successful-login handler's unpruned read vivifies it); the
`invalid_user` entry is created exactly by the first
InvalidUserAttempt for that IP; and neither entry is ever destroyed
over any subsequent event stream. -/
theorem claim_C7 :
    (∀ (s : SSHEdr) (ip ip' : String) (now : Nat),
      hasKey (process s (.failedLogin ip') now).1.failed ip =
        (decide (ip' = ip) || hasKey s.failed ip)) ∧
    (∀ (s : SSHEdr) (ip ip' : String) (now : Nat),
      hasKey (process s (.authFailure ip') now).1.failed ip =
        (decide (ip' = ip) || hasKey s.failed ip)) ∧
    (∀ (s : SSHEdr) (ip user ip' : String) (now : Nat),
      hasKey (process s (.successfulLogin user ip') now).1.failed ip =
        (decide (ip' = ip) || hasKey s.failed ip)) ∧
    (∀ (s : SSHEdr) (ip ip' user : String) (now : Nat),
      hasKey (process s (.invalidUserAttempt ip' user) now).1.failed ip =
        hasKey s.failed ip) ∧
    (∀ (s : SSHEdr) (ip ip' user : String) (now : Nat),
      hasKey (process s (.invalidUserAttempt ip' user) now).1.invalid_user ip =
        (decide (ip' = ip) || hasKey s.invalid_user ip)) ∧
    (∀ (s : SSHEdr) (ip ip' : String) (now : Nat),
      hasKey (process s (.failedLogin ip') now).1.invalid_user ip =
        hasKey s.invalid_user ip) ∧
    (∀ (s : SSHEdr) (ip ip' : String) (now : Nat),
      hasKey (process s (.authFailure ip') now).1.invalid_user ip =
        hasKey s.invalid_user ip) ∧
    (∀ (s : SSHEdr) (ip user ip' : String) (now : Nat),
      hasKey (process s (.successfulLogin user ip') now).1.invalid_user ip =
        hasKey s.invalid_user ip) ∧
    (∀ (evs : List (Event × Nat)) (s : SSHEdr) (ip : String),
      hasKey s.failed ip = true → hasKey (processAll s evs).1.failed ip = true) ∧
    (∀ (evs : List (Event × Nat)) (s : SSHEdr) (ip : String),
      hasKey s.invalid_user ip = true →
        hasKey (processAll s evs).1.invalid_user ip = true) := by
  refine ⟨?_, ?_, ?_, ?_, ?_, ?_, ?_, ?_, ?_, ?_⟩
  · intro s ip ip' now
    simp [process, record_failed_eq, hasKey_ddSet]
  · intro s ip ip' now
    simp [process, record_failed_eq, hasKey_ddSet]
  · intro s ip user ip' now
    simp [process, record_success_eq, ddTouch, hasKey_ddSet]
  · intro s ip ip' user now
    simp [process, record_invalid_user_eq]
  · intro s ip ip' user now
    simp [process, record_invalid_user_eq, hasKey_ddSet]
  · intro s ip ip' now
    simp [process, record_failed_eq]
  · intro s ip ip' now
    simp [process, record_failed_eq]
  · intro s ip user ip' now
    simp [process, record_success_eq]
  · intro evs
    induction evs with
    | nil => intro s ip h; exact h
    | cons p rest ih =>
        intro s ip h
        obtain ⟨e, t⟩ := p
        simp only [processAll]
        exact ih (process s e t).1 ip (hasKey_failed_process s e t ip h)
  · intro evs
    induction evs with
    | nil => intro s ip h; exact h
    | cons p rest ih =>
        intro s ip h
        obtain ⟨e, t⟩ := p
        simp only [processAll]
        exact ih (process s e t).1 ip (hasKey_invalid_process s e t ip h)

/-- Claim C7 witness: a `failed` entry present before a successful
login is still present afterwards. -/
theorem claim_C7_witness :
    hasKey (processAll { SSHEdr.init 5 60 8 true false with failed := [("3.3.3.3", [1])] }
      [(.successfulLogin "bob" "4.4.4.4", 2)]).1.failed "3.3.3.3" = true :=
  claim_C7.2.2.2.2.2.2.2.2.1 [(.successfulLogin "bob" "4.4.4.4", 2)]
    { SSHEdr.init 5 60 8 true false with failed := [("3.3.3.3", [1])] } "3.3.3.3" (by decide)

/-- The number of `login_from_new_ip` alerts for a given `(user, ip)`
pair in a list of alerts. -/
def countNewIp (as : List Alert) (user ip : String) : Nat :=
  (as.filter fun a => decide (a.info = AlertInfo.newIp user ip)).length

lemma countNewIp_append (a b : List Alert) (user ip : String) :
    countNewIp (a ++ b) user ip = countNewIp a user ip + countNewIp b user ip := by
  simp [countNewIp, List.filter_append]

lemma knownOf_mem_process (s : SSHEdr) (e : Event) (now : Nat) (u ip : String)
    (h : ip ∈ knownOf s u) : ip ∈ knownOf (process s e now).1 u := by
  cases e with
  | failedLogin ip' => simpa [process, record_failed_eq, knownOf] using h
  | authFailure ip' => simpa [process, record_failed_eq, knownOf] using h
  | invalidUserAttempt ip' user' => simpa [process, record_invalid_user_eq, knownOf] using h
  | successfulLogin u' ip' =>
      simp only [process, record_success_eq, knownOf, successKnown]
      split_ifs with hmem
      · simpa [knownOf] using h
      · by_cases hu : u' = u
        · subst hu
          simp only [ddGet_ddSet_self]
          exact List.mem_append_left _ h
        · rw [ddGet_ddSet_ne [] _ u' u _ hu]
          exact h

lemma knownOf_after_success (s : SSHEdr) (u ip : String) (now : Nat) :
    ip ∈ knownOf (process s (.successfulLogin u ip) now).1 u := by
  simp only [process, record_success_eq, knownOf, successKnown]
  split_ifs with hmem
  · simpa [knownOf] using hmem
  · simp

lemma countNewIp_step_known (s : SSHEdr) (e : Event) (now : Nat) (u ip : String)
    (h : ip ∈ knownOf s u) : countNewIp (process s e now).2.1 u ip = 0 := by
  cases e with
  | failedLogin ip' =>
      simp only [process, record_failed_eq, countNewIp, failedAlerts, bfAlert]
      split_ifs <;> simp
  | authFailure ip' =>
      simp only [process, record_failed_eq, countNewIp, failedAlerts, bfAlert]
      split_ifs <;> simp
  | invalidUserAttempt ip' user' =>
      simp only [process, record_invalid_user_eq, countNewIp, invalidAlerts, iuAlert]
      split_ifs <;> simp
  | successfulLogin u' ip' =>
      simp only [process, record_success_eq, successAlerts, countNewIp,
        List.filter_append, List.length_append, safAlert, niAlert]
      by_cases hmem : ip' ∈ knownOf s u'
      · split_ifs <;> simp_all
      · have hne : ¬ (AlertInfo.newIp u' ip' = AlertInfo.newIp u ip) := by
          intro heq
          rw [AlertInfo.newIp.injEq] at heq
          obtain ⟨hu, hip⟩ := heq
          subst hu; subst hip
          exact hmem h
        split_ifs <;> simp_all

lemma countNewIp_step_notmem (s : SSHEdr) (e : Event) (now : Nat) (u ip : String)
    (h : ip ∉ knownOf s u) (hne : e ≠ .successfulLogin u ip) :
    countNewIp (process s e now).2.1 u ip = 0 ∧
      ip ∉ knownOf (process s e now).1 u := by
  cases e with
  | failedLogin ip' =>
      constructor
      · simp only [process, record_failed_eq, countNewIp, failedAlerts, bfAlert]
        split_ifs <;> simp
      · simpa [process, record_failed_eq, knownOf] using h
  | authFailure ip' =>
      constructor
      · simp only [process, record_failed_eq, countNewIp, failedAlerts, bfAlert]
        split_ifs <;> simp
      · simpa [process, record_failed_eq, knownOf] using h
  | invalidUserAttempt ip' user' =>
      constructor
      · simp only [process, record_invalid_user_eq, countNewIp, invalidAlerts, iuAlert]
        split_ifs <;> simp
      · simpa [process, record_invalid_user_eq, knownOf] using h
  | successfulLogin u' ip' =>
      have hpair : ¬ (u' = u ∧ ip' = ip) := by
        rintro ⟨h1, h2⟩
        subst h1; subst h2
        exact hne rfl
      constructor
      · simp only [process, record_success_eq, successAlerts, countNewIp,
          List.filter_append, List.length_append, safAlert, niAlert]
        have hinfo : ¬ (AlertInfo.newIp u' ip' = AlertInfo.newIp u ip) := by
          intro heq
          rw [AlertInfo.newIp.injEq] at heq
          exact hpair heq
        split_ifs <;> simp_all
      · simp only [process, record_success_eq, knownOf, successKnown]
        split_ifs with hmem
        · simpa [knownOf] using h
        · by_cases hu : u' = u
          · subst hu
            simp only [ddGet_ddSet_self, List.mem_append, List.mem_singleton]
            rintro (hin | heq)
            · exact h hin
            · exact hpair ⟨rfl, heq.symm⟩
          · rw [ddGet_ddSet_ne [] _ u' u _ hu]
            exact h

lemma countNewIp_zero_of_known (u ip : String) :
    ∀ (evs : List (Event × Nat)) (s : SSHEdr), ip ∈ knownOf s u →
      countNewIp (processAll s evs).2.1 u ip = 0 := by
  intro evs
  induction evs with
  | nil => intro s _; rfl
  | cons p rest ih =>
      intro s h
      obtain ⟨e, t⟩ := p
      simp only [processAll, countNewIp_append]
      rw [countNewIp_step_known s e t u ip h,
        ih (process s e t).1 (knownOf_mem_process s e t u ip h)]

lemma countNewIp_run (u ip : String) :
    ∀ (evs : List (Event × Nat)) (s : SSHEdr), ip ∉ knownOf s u →
      countNewIp (processAll s evs).2.1 u ip =
        if ∃ p ∈ evs, p.1 = Event.successfulLogin u ip then 1 else 0 := by
  intro evs
  induction evs with
  | nil => intro s _; rfl
  | cons p rest ih =>
      intro s h
      obtain ⟨e, t⟩ := p
      simp only [processAll, countNewIp_append]
      by_cases he : e = Event.successfulLogin u ip
      · subst he
        have h1 : countNewIp (process s (.successfulLogin u ip) t).2.1 u ip = 1 := by
          simp only [process, record_success_eq, successAlerts, countNewIp,
            List.filter_append, List.length_append, safAlert, niAlert]
          split_ifs <;> simp_all
        rw [h1, countNewIp_zero_of_known u ip rest _
          (knownOf_after_success s u ip t)]
        rw [if_pos ⟨(Event.successfulLogin u ip, t), List.mem_cons_self _ _, rfl⟩]
      · obtain ⟨h0, hnot⟩ := countNewIp_step_notmem s e t u ip h he
        rw [h0, ih (process s e t).1 hnot]
        have hiff : (∃ p ∈ (e, t) :: rest, p.1 = Event.successfulLogin u ip) ↔
            (∃ p ∈ rest, p.1 = Event.successfulLogin u ip) := by
          constructor
          · rintro ⟨q, hq, hq1⟩
            rcases List.mem_cons.mp hq with hq | hq
            · exact absurd (by rw [hq] at hq1; exact hq1) he
            · exact ⟨q, hq, hq1⟩
          · rintro ⟨q, hq, hq1⟩
            exact ⟨q, List.mem_cons_of_mem _ hq, hq1⟩
        rw [if_congr hiff rfl rfl]
        simp

/-- Claim C4: for a fixed `(user, ip)` pair not yet known, the
`login_from_new_ip` alert is emitted on the first successful login for
that pair, and over any event stream the total number of such alerts
for the pair is one if the stream contains a successful login for the
pair and zero otherwise; once the pair is known no stream ever emits
it again. -/
theorem claim_C4 (s : SSHEdr) (u ip : String) (h : ip ∉ knownOf s u) :
    (∀ now : Nat, niAlert u ip now ∈ (process s (.successfulLogin u ip) now).2.1) ∧
    (∀ evs : List (Event × Nat),
      countNewIp (processAll s evs).2.1 u ip =
        if ∃ p ∈ evs, p.1 = Event.successfulLogin u ip then 1 else 0) ∧
    (∀ (s' : SSHEdr) (evs : List (Event × Nat)), ip ∈ knownOf s' u →
      countNewIp (processAll s' evs).2.1 u ip = 0) := by
  refine ⟨?_, fun evs => countNewIp_run u ip evs s h,
    fun s' evs h' => countNewIp_zero_of_known u ip evs s' h'⟩
  intro now
  simp [process, record_success_eq, successAlerts, h]

/-- Claim C4 witness: two successful logins for the same fresh pair
produce exactly one `login_from_new_ip` alert. -/
theorem claim_C4_witness :
    countNewIp (processAll (SSHEdr.init 5 60 8 true false)
      [(.successfulLogin "alice" "198.51.100.7", 0),
       (.successfulLogin "alice" "198.51.100.7", 5)]).2.1 "alice" "198.51.100.7" = 1 := by
  have h := (claim_C4 (SSHEdr.init 5 60 8 true false) "alice" "198.51.100.7"
    (by decide)).2.1 [(.successfulLogin "alice" "198.51.100.7", 0),
      (.successfulLogin "alice" "198.51.100.7", 5)]
  rw [h, if_pos ⟨(.successfulLogin "alice" "198.51.100.7", 0), by simp, rfl⟩]

/-- Claim C5: the classifier tries the failed-password, invalid-user,
accepted-login and PAM patterns in that fixed order and produces the
event of the first one that matches, even when a later pattern also
matches (the concrete conjunct exhibits a line matched by both the
failed-password and the invalid-user regex, classified as a failed
login); a line matching none of the four yields no event and
`parse_line` leaves the state untouched, emitting no alert and no
block request. -/
theorem claim_C5 :
    (∀ (line : String) (ip : String),
      searchPos matchFAILEDAt line.toList = some ip →
      classify line = some (.failedLogin ip)) ∧
    (∀ (line : String) (p : String × String),
      searchPos matchFAILEDAt line.toList = none →
      searchPos matchINVALIDAt line.toList = some p →
      classify line = some (.invalidUserAttempt p.2 p.1)) ∧
    (∀ (line : String) (p : String × String),
      searchPos matchFAILEDAt line.toList = none →
      searchPos matchINVALIDAt line.toList = none →
      searchPos matchACCEPTEDAt line.toList = some p →
      classify line = some (.successfulLogin p.1 p.2)) ∧
    (∀ (line : String) (ip : String),
      searchPos matchFAILEDAt line.toList = none →
      searchPos matchINVALIDAt line.toList = none →
      searchPos matchACCEPTEDAt line.toList = none →
      searchPos matchPAMAt line.toList = some ip →
      classify line = some (.authFailure ip)) ∧
    (∀ line : String,
      searchPos matchFAILEDAt line.toList = none →
      searchPos matchINVALIDAt line.toList = none →
      searchPos matchACCEPTEDAt line.toList = none →
      searchPos matchPAMAt line.toList = none →
      classify line = none ∧
        ∀ (s : SSHEdr) (now : Nat), parse_line s line now = (s, [], [])) ∧
    (classify "Invalid user eve from 9.9.9.9 Failed password for eve from 9.9.9.9" =
      some (.failedLogin "9.9.9.9")) := by
  refine ⟨?_, ?_, ?_, ?_, ?_, by rfl⟩
  · intro line ip h1
    have g1 : searchPos matchFAILEDAt line.data = some ip := h1
    simp [classify, g1]
  · intro line p h1 h2
    have g1 : searchPos matchFAILEDAt line.data = none := h1
    have g2 : searchPos matchINVALIDAt line.data = some p := h2
    simp [classify, g1, g2]
  · intro line p h1 h2 h3
    have g1 : searchPos matchFAILEDAt line.data = none := h1
    have g2 : searchPos matchINVALIDAt line.data = none := h2
    have g3 : searchPos matchACCEPTEDAt line.data = some p := h3
    simp [classify, g1, g2, g3]
  · intro line ip h1 h2 h3 h4
    have g1 : searchPos matchFAILEDAt line.data = none := h1
    have g2 : searchPos matchINVALIDAt line.data = none := h2
    have g3 : searchPos matchACCEPTEDAt line.data = none := h3
    have g4 : searchPos matchPAMAt line.data = some ip := h4
    simp [classify, g1, g2, g3, g4]
  · intro line h1 h2 h3 h4
    have g1 : searchPos matchFAILEDAt line.data = none := h1
    have g2 : searchPos matchINVALIDAt line.data = none := h2
    have g3 : searchPos matchACCEPTEDAt line.data = none := h3
    have g4 : searchPos matchPAMAt line.data = none := h4
    have hc : classify line = none := by simp [classify, g1, g2, g3, g4]
    exact ⟨hc, fun s now => by simp [parse_line, hc]⟩

/-- Claim C5 witness: an unmatched line leaves a concrete engine state
unchanged and emits nothing. -/
theorem claim_C5_witness :
    parse_line (SSHEdr.init 5 60 8 true false) "nothing interesting here" 3 =
      (SSHEdr.init 5 60 8 true false, [], []) :=
  ((claim_C5.2.2.2.2.1 "nothing interesting here"
    (by rfl) (by rfl) (by rfl) (by rfl)).2 (SSHEdr.init 5 60 8 true false) 3)

/-- The alerts a run of failed-login events emits when no entry is
ever pruned: the k-th event of the run sees a count of `n0 + k` and
alerts exactly when that count reaches the threshold. -/
def alertsFormula (T w : Nat) (ip : String) : Nat → List Nat → List Alert
  | _, [] => []
  | n0, t :: ts =>
      (if T ≤ n0 + 1 then [bfAlert ip (n0 + 1) w t] else []) ++
        alertsFormula T w ip (n0 + 1) ts

lemma alertsFormula_append (T w : Nat) (ip : String) :
    ∀ (l1 l2 : List Nat) (n0 : Nat),
      alertsFormula T w ip n0 (l1 ++ l2) =
        alertsFormula T w ip n0 l1 ++ alertsFormula T w ip (n0 + l1.length) l2 := by
  intro l1
  induction l1 with
  | nil => intro l2 n0; simp [alertsFormula]
  | cons t rest ih =>
      intro l2 n0
      have harith : n0 + 1 + rest.length = n0 + (rest.length + 1) := by omega
      simp only [List.cons_append, alertsFormula, List.append_eq, ih l2 (n0 + 1),
        harith, List.length_cons, List.append_assoc]

lemma alertsFormula_eq_nil (T w : Nat) (ip : String) :
    ∀ (ts : List Nat) (n0 : Nat), n0 + ts.length < T →
      alertsFormula T w ip n0 ts = [] := by
  intro ts
  induction ts with
  | nil => intro n0 _; rfl
  | cons t rest ih =>
      intro n0 h
      simp only [List.length_cons] at h
      simp only [alertsFormula]
      rw [if_neg (by omega), ih (n0 + 1) (by omega)]
      rfl

/-- A failed-login run in which all events lie within one window of
each other: the deque just accumulates the arrival times (nothing is
pruned) and the emitted alerts follow `alertsFormula`. -/
lemma runFailed_spec (ip : String) :
    ∀ (ts : List Nat) (s : SSHEdr),
      List.Pairwise (· ≤ ·) (failedOf s ip ++ ts) →
      (∀ a ∈ failedOf s ip ++ ts, ∀ b ∈ failedOf s ip ++ ts, a ≤ b + s.window) →
      failedOf (runFailed s ip ts).1 ip = failedOf s ip ++ ts ∧
      (runFailed s ip ts).2.1 =
        alertsFormula s.failed_threshold s.window ip (failedOf s ip).length ts := by
  intro ts
  induction ts with
  | nil =>
      intro s _ _
      exact ⟨by simp [runFailed, processAll], rfl⟩
  | cons t rest ih =>
      intro s hp hw
      have hmem1 : ∀ x ∈ failedOf s ip ++ [t], x ∈ failedOf s ip ++ t :: rest := by
        intro x hx
        rcases List.mem_append.mp hx with hx | hx
        · exact List.mem_append_left _ hx
        · simp only [List.mem_singleton] at hx
          subst hx
          exact List.mem_append_right _ (List.mem_cons_self _ _)
      have htmem : t ∈ failedOf s ip ++ t :: rest :=
        List.mem_append_right _ (List.mem_cons_self _ _)
      have hcut : ∀ x ∈ failedOf s ip ++ [t], t - s.window ≤ x := by
        intro x hx
        exact Nat.sub_le_iff_le_add.mpr (hw t htmem x (hmem1 x hx))
      have hprune : prune (failedOf s ip ++ [t]) (t - s.window) =
          failedOf s ip ++ [t] := prune_eq_self _ _ hcut
      have hstep : process s (.failedLogin ip) t =
          ({ s with failed := ddSet s.failed ip (failedOf s ip ++ [t]),
                    alerts := s.alerts ++ failedAlerts s ip t },
            failedAlerts s ip t, failedBlocks s ip t) := by
        rw [show process s (.failedLogin ip) t = record_failed s ip t from rfl,
          record_failed_eq, hprune]
      have hruncons : runFailed s ip (t :: rest) =
          ((runFailed (process s (.failedLogin ip) t).1 ip rest).1,
            (process s (.failedLogin ip) t).2.1 ++
              (runFailed (process s (.failedLogin ip) t).1 ip rest).2.1,
            (process s (.failedLogin ip) t).2.2 ++
              (runFailed (process s (.failedLogin ip) t).1 ip rest).2.2) := by
        simp [runFailed, processAll]
      set s1 : SSHEdr :=
        { s with failed := ddSet s.failed ip (failedOf s ip ++ [t]),
                 alerts := s.alerts ++ failedAlerts s ip t } with hs1
      have hfo1 : failedOf s1 ip = failedOf s ip ++ [t] := by
        simp [hs1, failedOf]
      have hlist : failedOf s1 ip ++ rest = failedOf s ip ++ t :: rest := by
        rw [hfo1, List.append_assoc]
        rfl
      have hwin1 : s1.window = s.window := rfl
      have hthr1 : s1.failed_threshold = s.failed_threshold := rfl
      have hih := ih s1 (by rw [hlist]; exact hp)
        (by rw [hlist, hwin1]; exact hw)
      have hA : failedAlerts s ip t =
          if s.failed_threshold ≤ (failedOf s ip).length + 1 then
            [bfAlert ip ((failedOf s ip).length + 1) s.window t]
          else [] := by
        simp [failedAlerts, hprune]
      constructor
      · rw [hruncons]
        have : (process s (.failedLogin ip) t).1 = s1 := by rw [hstep]
        rw [this, hih.1, hlist]
      · rw [hruncons]
        have h1 : (process s (.failedLogin ip) t).1 = s1 := by rw [hstep]
        have h2 : (process s (.failedLogin ip) t).2.1 = failedAlerts s ip t := by
          rw [hstep]
        rw [h1, h2, hih.2, hwin1, hthr1, hfo1, hA]
        simp only [List.length_append, List.length_singleton, alertsFormula]

/-- Claim C1: for any IP, threshold `T` and window `W`, a run of `T`
failed-login events within `W` seconds of each other on a fresh IP
emits no alert during the first `T - 1` events and exactly one
`brute_force_suspected` alert overall, on the `T`-th event with
`count = T`; a `(T+1)`-th event still within the window emits a second
alert with `count = T+1` (no cooldown); with a sorted deque the prune
keeps exactly the entries at least `now - window`, so entries older
than the window are excluded from the evaluated count; and a PAM
`AuthFailure` is processed identically to a `FailedLogin`. -/
theorem claim_C1 (s : SSHEdr) (ip : String) (ts : List Nat) (tT : Nat)
    (hT : s.failed_threshold = ts.length + 1)
    (h0 : failedOf s ip = [])
    (hp : List.Pairwise (· ≤ ·) (ts ++ [tT]))
    (hw : ∀ a ∈ ts ++ [tT], ∀ b ∈ ts ++ [tT], a ≤ b + s.window) :
    ((runFailed s ip ts).2.1 = [] ∧
     (runFailed s ip (ts ++ [tT])).2.1 = [bfAlert ip (ts.length + 1) s.window tT] ∧
     (∀ t', List.Pairwise (· ≤ ·) (ts ++ [tT] ++ [t']) →
        (∀ a ∈ ts ++ [tT] ++ [t'], ∀ b ∈ ts ++ [tT] ++ [t'], a ≤ b + s.window) →
        (runFailed s ip (ts ++ [tT] ++ [t'])).2.1 =
          [bfAlert ip (ts.length + 1) s.window tT,
           bfAlert ip (ts.length + 2) s.window t'])) ∧
    (∀ (dq : List Nat) (now w : Nat), List.Pairwise (· ≤ ·) dq →
      prune dq (now - w) = dq.filter fun x => decide (now - w ≤ x)) ∧
    (∀ (s' : SSHEdr) (ip' : String) (now : Nat),
      process s' (.authFailure ip') now = process s' (.failedLogin ip') now) := by
  refine ⟨⟨?_, ?_, ?_⟩, fun dq now w h => prune_eq_filter dq (now - w) h,
    fun s' ip' now => rfl⟩
  · have hsub : ts.Sublist (ts ++ [tT]) := List.sublist_append_left ts [tT]
    have hspec := runFailed_spec ip ts s
      (by rw [h0]; exact hp.sublist hsub)
      (by
        rw [h0]
        intro a ha b hb
        exact hw a (List.mem_append_left _ (by simpa using ha))
          b (List.mem_append_left _ (by simpa using hb)))
    rw [hspec.2, h0]
    exact alertsFormula_eq_nil _ _ _ ts 0 (by omega)
  · have hspec := runFailed_spec ip (ts ++ [tT]) s
      (by rw [h0]; exact hp) (by rw [h0]; simpa using hw)
    rw [hspec.2, h0, List.length_nil, alertsFormula_append]
    rw [alertsFormula_eq_nil _ _ _ ts 0 (by omega)]
    simp only [alertsFormula, Nat.zero_add, List.nil_append, List.append_nil]
    rw [if_pos (by omega)]
  · intro t' hp' hw'
    have hspec := runFailed_spec ip (ts ++ [tT] ++ [t']) s
      (by rw [h0]; exact hp') (by rw [h0]; simpa using hw')
    rw [hspec.2, h0, List.length_nil, alertsFormula_append,
      alertsFormula_append]
    rw [alertsFormula_eq_nil _ _ _ ts 0 (by omega)]
    simp only [alertsFormula, Nat.zero_add, List.nil_append, List.append_nil,
      List.length_append, List.length_singleton]
    rw [if_pos (by omega), if_pos (by omega)]
    rfl

/-- Claim C1 witness: threshold 2, window 60; failures at times 0 and
10 produce exactly the single alert with count 2 on the second
event. -/
theorem claim_C1_witness :
    (runFailed (SSHEdr.init 2 60 8 true false) "9.9.9.9" ([0] ++ [10])).2.1 =
      [bfAlert "9.9.9.9" 2 60 10] :=
  (claim_C1 (SSHEdr.init 2 60 8 true false) "9.9.9.9" [0] 10
    (by rfl) (by rfl) (by decide) (by decide)).1.2.1

end SshEdr
